import Mathlib

/-!
Verification of the task CRUD handlers

Shallow embedding of the five task handlers of the repository
(`createTask`, `getTask`, `getTasks`, `updateTask`, `deleteTask`) over a
store modelled as a list of task rows in insertion order, together with
proofs of the specified properties.

Timestamps are modelled as natural numbers; ids as integers (the store
assigns positive serial ids, but any integer is a valid lookup value).
A fallible handler returns an `Except String` result; handlers that can
mutate the store additionally return the resulting store.
-/

namespace Todo

/-- A task row, mirroring the `tasks` table columns
(id, title, description, completed, created_at, updated_at). -/
structure Task where
  id : Int
  title : String
  description : Option String
  completed : Bool
  created_at : Nat
  updated_at : Nat
deriving Repr, DecidableEq

/-- Input shape `{ id }` used by `getTask` and `deleteTask`. -/
structure TaskIdInput where
  id : Int
deriving Repr, DecidableEq

/-- Input shape `{ title, description }` used by `createTask`. -/
structure CreateTaskInput where
  title : String
  description : Option String
deriving Repr, DecidableEq

/-- Input shape `{ id, title?, description?, completed? }` used by
`updateTask`.  Each optional field distinguishes absent (`none`) from
present (`some _`); for `description` the present value is itself
`Option String`, so absent, null and value are three distinct states. -/
structure UpdateTaskInput where
  id : Int
  title : Option String := none
  description : Option (Option String) := none
  completed : Option Bool := none
deriving Repr, DecidableEq

/-- `getTask` from `src/unnamed/part_001`: select the rows whose id
equals the input id; if none, throw `Task with ID <id> not found`,
otherwise return the first (and only) row. -/
def getTask (store : List Task) (input : TaskIdInput) : Except String Task :=
  match store.filter (fun t => t.id == input.id) with
  | [] => .error ("Task with ID " ++ toString input.id ++ " not found")
  | t :: _ => .ok t

/-- The comparison used by `getTasks`: `ORDER BY created_at DESC`. -/
def createdAtDesc (a b : Task) : Bool :=
  decide (b.created_at ≤ a.created_at)

/-- `getTasks` from `src/server/src/handlers/get_tasks.ts`: select all
rows ordered by `created_at` descending.  The row source is the store in
insertion order and the sort is stable, so ties keep insertion order. -/
def getTasks (store : List Task) : List Task :=
  store.mergeSort createdAtDesc

/-- The row transformation performed by the `UPDATE ... SET` statement of
`updateTask` (`src/unnamed/part_000`): `updated_at` is always set to the
current time, and each of title / description / completed is overwritten
only when the corresponding input field is present. -/
def applyUpdate (input : UpdateTaskInput) (now : Nat) (t : Task) : Task :=
  { t with
    updated_at := now
    title := input.title.getD t.title
    description := input.description.getD t.description
    completed := input.completed.getD t.completed }

/-- `updateTask` from `src/unnamed/part_000`: one
`UPDATE ... WHERE id = input.id RETURNING *` statement.  Every row whose
id matches is rewritten by `applyUpdate`; the returned-row list is the
matching rows of the updated store.  When it is empty the handler throws
`Task with id <id> not found`; there is no separate existence check
before the write.  The second component is the store after the
statement. -/
def updateTask (store : List Task) (input : UpdateTaskInput) (now : Nat) :
    Except String Task × List Task :=
  let updated := store.map fun t =>
    if t.id == input.id then applyUpdate input now t else t
  match updated.filter (fun t => t.id == input.id) with
  | [] => (.error ("Task with id " ++ toString input.id ++ " not found"), updated)
  | t :: _ => (.ok t, updated)

/-- Modelled from the spec: `src/server/src/handlers/delete_task.ts` is a
placeholder stub ("Real code should be implemented here"), so the real
delete handler is not under `src/`.  Spec section 4.5: verify existence,
remove the row permanently, return a success indicator `{ success: true }`;
fail with a Not-Found error carrying the id in its message when no
matching row exists.  The second component is the store afterwards. -/
def deleteTask (store : List Task) (input : TaskIdInput) :
    Except String Bool × List Task :=
  if store.any (fun t => t.id == input.id) then
    (.ok true, store.filter (fun t => !(t.id == input.id)))
  else
    (.error ("Task with id " ++ toString input.id ++ " not found"), store)

/-- The full store state: rows in insertion order plus the serial-id
counter the store uses to assign the next id. -/
structure Store where
  tasks : List Task
  nextId : Int
deriving Repr, DecidableEq

/-- Modelled from the spec: the handler `createTask`
(`src/server/src/handlers/create_task.ts`) is absent from `src/` — only
its tests are present.  Spec section 4.1 and the tests in
`src/server/src/tests/create_task.test.ts`: persist a new row with a
store-generated id, the given title and description, `completed = false`
and `created_at = updated_at = now`, and return it. -/
def createTask (s : Store) (input : CreateTaskInput) (now : Nat) :
    Task × Store :=
  let t : Task :=
    { id := s.nextId, title := input.title, description := input.description
      completed := false, created_at := now, updated_at := now }
  (t, { tasks := s.tasks ++ [t], nextId := s.nextId + 1 })

/-- Modelled from the spec: the Zod validation schema
(`src/server/src/schema.ts`) is imported by every handler but absent from
`src/`.  Spec sections 3 and 4.1: `title` is non-empty text, required on
create. -/
def ValidCreateInput (input : CreateTaskInput) : Prop :=
  input.title ≠ ""

/-- Modelled from the spec: the Zod validation schema
(`src/server/src/schema.ts`) is absent from `src/`.  Spec section 3:
`title` is non-empty text (and mutable), so an update that supplies a
title supplies a non-empty one. -/
def ValidUpdateInput (input : UpdateTaskInput) : Prop :=
  ∀ s, input.title = some s → s ≠ ""

/-- One handler invocation, as a transition on the store state.  The two
read handlers leave the store unchanged; the three mutating handlers
replace the row list with the one they produce (a failed update or
delete leaves the rows as they were). -/
inductive Step : Store → Store → Prop
  | create (s : Store) (input : CreateTaskInput) (now : Nat)
      (hv : ValidCreateInput input) :
      Step s (createTask s input now).2
  | update (s : Store) (input : UpdateTaskInput) (now : Nat)
      (hv : ValidUpdateInput input) :
      Step s { s with tasks := (updateTask s.tasks input now).2 }
  | delete (s : Store) (input : TaskIdInput) :
      Step s { s with tasks := (deleteTask s.tasks input).2 }
  | readOne (s : Store) (input : TaskIdInput) : Step s s
  | readAll (s : Store) : Step s s

/-- The empty store the application starts from (serial ids start at 1). -/
def initialStore : Store :=
  { tasks := [], nextId := 1 }

/-- A store state is reachable when some sequence of handler invocations
produces it from the empty store. -/
def Reachable (s : Store) : Prop :=
  Relation.ReflTransGen Step initialStore s

/-- The store invariant: ids are pairwise distinct (the store assigns
each row a fresh serial id). -/
def IdsNodup (store : List Task) : Prop :=
  (store.map Task.id).Nodup

/-- Every stored title is a non-empty string. -/
def TitlesNonEmpty (s : Store) : Prop :=
  ∀ t ∈ s.tasks, t.title ≠ ""

/-! ## Helper lemmas -/

/-- The `UPDATE` row transformation never touches the id column. -/
theorem applyUpdate_id (input : UpdateTaskInput) (now : Nat) (t : Task) :
    (applyUpdate input now t).id = t.id := rfl

/-- The `UPDATE` row transformation never touches the created_at column. -/
theorem applyUpdate_created_at (input : UpdateTaskInput) (now : Nat) (t : Task) :
    (applyUpdate input now t).created_at = t.created_at := rfl

/-- In a store with pairwise-distinct ids, a member row splits the store
into a left part and a right part in which no row carries its id. -/
theorem nodup_decomp (store : List Task) (t : Task) (i : Int)
    (hnd : IdsNodup store) (hmem : t ∈ store) (hid : t.id = i) :
    ∃ l1 l2, store = l1 ++ t :: l2 ∧
      (∀ x ∈ l1, x.id ≠ i) ∧ (∀ x ∈ l2, x.id ≠ i) := by
  obtain ⟨l1, l2, rfl⟩ := List.append_of_mem hmem
  have h1 : (l1.map Task.id ++ t.id :: l2.map Task.id).Nodup := by
    simpa [IdsNodup] using hnd
  rw [List.nodup_middle, List.nodup_cons] at h1
  subst hid
  refine ⟨l1, l2, rfl, ?_, ?_⟩
  · intro x hx hxi
    exact h1.1 (List.mem_append.2 (Or.inl (hxi ▸ List.mem_map_of_mem Task.id hx)))
  · intro x hx hxi
    exact h1.1 (List.mem_append.2 (Or.inr (hxi ▸ List.mem_map_of_mem Task.id hx)))

/-- Selecting by an id that no row carries yields no rows. -/
theorem filter_id_eq_nil (store : List Task) (i : Int)
    (h : ∀ x ∈ store, x.id ≠ i) :
    store.filter (fun t => t.id == i) = [] := by
  rw [List.filter_eq_nil_iff]
  intro x hx
  simpa using h x hx

/-- In a store with pairwise-distinct ids, selecting by the id of a member
row yields exactly that row. -/
theorem filter_id_eq_single (store : List Task) (t : Task) (i : Int)
    (hnd : IdsNodup store) (hmem : t ∈ store) (hid : t.id = i) :
    store.filter (fun x => x.id == i) = [t] := by
  obtain ⟨l1, l2, rfl, h1, h2⟩ := nodup_decomp store t i hnd hmem hid
  rw [List.filter_append, filter_id_eq_nil l1 i h1,
    List.filter_cons_of_pos (by simp [hid]), filter_id_eq_nil l2 i h2]
  rfl

/-- When no row carries the input id, the `UPDATE` statement rewrites no
row at all. -/
theorem map_update_id_of_missing (store : List Task) (input : UpdateTaskInput)
    (now : Nat) (h : ∀ x ∈ store, x.id ≠ input.id) :
    (store.map fun x => if x.id == input.id then applyUpdate input now x else x)
      = store := by
  calc (store.map fun x => if x.id == input.id then applyUpdate input now x else x)
      = store.map id := List.map_congr_left (fun x hx => by simp [h x hx])
    _ = store := List.map_id store

/-- In a store with pairwise-distinct ids, an update whose id matches the
member row `t` succeeds: it returns the rewritten row, and the store
afterwards is the store with exactly that row rewritten in place. -/
theorem updateTask_ok_decomp (store : List Task) (input : UpdateTaskInput)
    (now : Nat) (t : Task) (hnd : IdsNodup store) (hmem : t ∈ store)
    (hid : t.id = input.id) :
    ∃ l1 l2, store = l1 ++ t :: l2 ∧
      updateTask store input now =
        (Except.ok (applyUpdate input now t),
          l1 ++ applyUpdate input now t :: l2) := by
  obtain ⟨l1, l2, rfl, h1, h2⟩ := nodup_decomp store t input.id hnd hmem hid
  have hmap : ((l1 ++ t :: l2).map fun x =>
      if x.id == input.id then applyUpdate input now x else x)
      = l1 ++ applyUpdate input now t :: l2 := by
    rw [List.map_append]
    congr 1
    · calc (l1.map fun x => if x.id == input.id then applyUpdate input now x else x)
          = l1.map id := List.map_congr_left (fun x hx => by simp [h1 x hx])
        _ = l1 := List.map_id l1
    · simp only [List.map_cons, if_pos (by simp [hid] : (t.id == input.id) = true)]
      congr 1
      calc (l2.map fun x => if x.id == input.id then applyUpdate input now x else x)
          = l2.map id := List.map_congr_left (fun x hx => by simp [h2 x hx])
        _ = l2 := List.map_id l2
  have hfil : (l1 ++ applyUpdate input now t :: l2).filter
      (fun x => x.id == input.id) = [applyUpdate input now t] := by
    rw [List.filter_append, filter_id_eq_nil l1 input.id h1,
      List.filter_cons_of_pos (by simp [applyUpdate_id, hid]),
      filter_id_eq_nil l2 input.id h2]
    rfl
  refine ⟨l1, l2, rfl, ?_⟩
  simp only [updateTask, hmap, hfil]

/-- A failed update (no row with the input id) issues an `UPDATE` that
rewrites nothing and reports the empty returned-row list as Not-Found. -/
theorem updateTask_missing_eq (store : List Task) (input : UpdateTaskInput)
    (now : Nat) (h : ∀ x ∈ store, x.id ≠ input.id) :
    updateTask store input now =
      (Except.error ("Task with id " ++ toString input.id ++ " not found"),
        store) := by
  simp only [updateTask, map_update_id_of_missing store input now h,
    filter_id_eq_nil store input.id h]

/-- In a store with pairwise-distinct ids, deleting the id of a member
row succeeds and removes exactly that row from the store. -/
theorem deleteTask_found_decomp (store : List Task) (input : TaskIdInput)
    (t : Task) (hnd : IdsNodup store) (hmem : t ∈ store)
    (hid : t.id = input.id) :
    ∃ l1 l2, store = l1 ++ t :: l2 ∧
      deleteTask store input = (Except.ok true, l1 ++ l2) := by
  obtain ⟨l1, l2, rfl, h1, h2⟩ := nodup_decomp store t input.id hnd hmem hid
  have hany : (l1 ++ t :: l2).any (fun x => x.id == input.id) = true :=
    List.any_eq_true.2 ⟨t, by simp, by simp [hid]⟩
  have hfil : (l1 ++ t :: l2).filter (fun x => !(x.id == input.id))
      = l1 ++ l2 := by
    rw [List.filter_append,
      List.filter_eq_self.mpr (fun x hx => by simp [h1 x hx]),
      List.filter_cons_of_neg (by simp [hid]),
      List.filter_eq_self.mpr (fun x hx => by simp [h2 x hx])]
  refine ⟨l1, l2, rfl, ?_⟩
  simp only [deleteTask, hany, if_pos, hfil]

/-! ## The claims -/

/-- Claim C1: for every store state and every id with no matching task row,
`deleteTask` fails with a Not-Found error whose message contains that id,
and never returns a success indicator for a missing id. -/
theorem deleteTask_missing_id_fails (store : List Task) (input : TaskIdInput)
    (h : ∀ t ∈ store, t.id ≠ input.id) :
    (∃ pre post, (deleteTask store input).1
        = Except.error (pre ++ toString input.id ++ post)) ∧
    ∀ b, (deleteTask store input).1 ≠ Except.ok b := by
  have hany : store.any (fun t => t.id == input.id) = false :=
    List.any_eq_false.2 (fun t ht => by simpa using h t ht)
  rw [deleteTask, if_neg (by simp [hany])]
  exact ⟨⟨"Task with id ", " not found", rfl⟩, fun b hb => by cases hb⟩

/-- Witness for C1 at a concrete store and the missing id 99999. -/
theorem deleteTask_missing_id_fails_witness :
    (∀ t ∈ [(⟨1, "A", some "d", false, 10, 10⟩ : Task)],
      t.id ≠ (⟨99999⟩ : TaskIdInput).id) ∧
    ((∃ pre post, (deleteTask [⟨1, "A", some "d", false, 10, 10⟩] ⟨99999⟩).1
        = Except.error (pre ++ toString (⟨99999⟩ : TaskIdInput).id ++ post)) ∧
      ∀ b, (deleteTask [⟨1, "A", some "d", false, 10, 10⟩] ⟨99999⟩).1
        ≠ Except.ok b) :=
  ⟨by decide, deleteTask_missing_id_fails _ _ (by decide)⟩

/-- Claim C2: deleting an existing id succeeds and removes exactly that row:
the store afterwards is the store with that one row excised, every other
row unchanged in place, order, count and content. -/
theorem deleteTask_removes_exactly_row (store : List Task)
    (input : TaskIdInput) (t : Task) (hnd : IdsNodup store) (hmem : t ∈ store)
    (hid : t.id = input.id) :
    (deleteTask store input).1 = Except.ok true ∧
    ∃ l1 l2, store = l1 ++ t :: l2 ∧ (deleteTask store input).2 = l1 ++ l2 := by
  obtain ⟨l1, l2, hdec, heq⟩ := deleteTask_found_decomp store input t hnd hmem hid
  exact ⟨by rw [heq], l1, l2, hdec, by rw [heq]⟩

/-- Witness for C2: deleting id 1 from a two-row store. -/
theorem deleteTask_removes_exactly_row_witness :
    (IdsNodup [(⟨1, "A", none, false, 10, 10⟩ : Task),
      ⟨2, "B", some "x", true, 20, 20⟩] ∧
      (⟨1, "A", none, false, 10, 10⟩ : Task)
        ∈ [(⟨1, "A", none, false, 10, 10⟩ : Task),
            ⟨2, "B", some "x", true, 20, 20⟩] ∧
      (⟨1, "A", none, false, 10, 10⟩ : Task).id = (⟨1⟩ : TaskIdInput).id) ∧
    ((deleteTask [⟨1, "A", none, false, 10, 10⟩,
        ⟨2, "B", some "x", true, 20, 20⟩] ⟨1⟩).1 = Except.ok true ∧
      ∃ l1 l2, [(⟨1, "A", none, false, 10, 10⟩ : Task),
          ⟨2, "B", some "x", true, 20, 20⟩]
            = l1 ++ (⟨1, "A", none, false, 10, 10⟩ : Task) :: l2 ∧
        (deleteTask [⟨1, "A", none, false, 10, 10⟩,
          ⟨2, "B", some "x", true, 20, 20⟩] ⟨1⟩).2 = l1 ++ l2) :=
  ⟨⟨by unfold IdsNodup; decide, by decide, by decide⟩,
    deleteTask_removes_exactly_row _ _ _
      (by unfold IdsNodup; decide) (by decide) (by decide)⟩

/-- Claim C6: for every update input whose id matches no stored row,
`updateTask` fails with a Not-Found error whose message contains that
id. -/
theorem updateTask_missing_id_fails (store : List Task)
    (input : UpdateTaskInput) (now : Nat)
    (h : ∀ t ∈ store, t.id ≠ input.id) :
    ∃ pre post, (updateTask store input now).1
      = Except.error (pre ++ toString input.id ++ post) := by
  rw [updateTask_missing_eq store input now h]
  exact ⟨"Task with id ", " not found", rfl⟩

/-- Witness for C6 at a concrete store and the missing id 99999. -/
theorem updateTask_missing_id_fails_witness :
    (∀ t ∈ [(⟨1, "A", none, false, 10, 10⟩ : Task)],
      t.id ≠ ({ id := 99999, completed := some true } : UpdateTaskInput).id) ∧
    ∃ pre post,
      (updateTask [⟨1, "A", none, false, 10, 10⟩]
        { id := 99999, completed := some true } 11).1
      = Except.error
          (pre ++ toString ({ id := 99999, completed := some true }
            : UpdateTaskInput).id ++ post) :=
  ⟨by decide, updateTask_missing_id_fails _ _ 11 (by decide)⟩

/-- Claim C10: an update on an id with no matching row leaves every row of the
store unchanged and reports an error; the not-found condition comes from
the empty returned-row list of the single `UPDATE` statement itself (the
embedding of `updateTask` contains no existence check before the
write). -/
theorem updateTask_missing_id_preserves_store (store : List Task)
    (input : UpdateTaskInput) (now : Nat)
    (h : ∀ t ∈ store, t.id ≠ input.id) :
    (updateTask store input now).2 = store ∧
    ∃ e, (updateTask store input now).1 = Except.error e := by
  rw [updateTask_missing_eq store input now h]
  exact ⟨rfl, _, rfl⟩

/-- Witness for C10 at a concrete store and the missing id 5. -/
theorem updateTask_missing_id_preserves_store_witness :
    (∀ t ∈ [(⟨1, "A", none, false, 10, 10⟩ : Task),
      ⟨2, "B", none, true, 20, 20⟩],
      t.id ≠ ({ id := 5, title := some "T" } : UpdateTaskInput).id) ∧
    ((updateTask [⟨1, "A", none, false, 10, 10⟩, ⟨2, "B", none, true, 20, 20⟩]
        { id := 5, title := some "T" } 30).2
      = [⟨1, "A", none, false, 10, 10⟩, ⟨2, "B", none, true, 20, 20⟩] ∧
    ∃ e, (updateTask [⟨1, "A", none, false, 10, 10⟩,
        ⟨2, "B", none, true, 20, 20⟩] { id := 5, title := some "T" } 30).1
      = Except.error e) :=
  ⟨by decide, updateTask_missing_id_preserves_store _ _ 30 (by decide)⟩

/-- Claim C3: `getTask` returns the stored task record exactly when a row with
the input id exists, and otherwise fails with a Not-Found error whose
message contains the requested id.  The id ranges over all integers, so
0 and negative ids are valid lookup values; they simply never match a
stored row. -/
theorem getTask_found_or_not_found (store : List Task) (input : TaskIdInput)
    (hnd : IdsNodup store) :
    (∀ t, t ∈ store → t.id = input.id → getTask store input = Except.ok t) ∧
    ((∀ t ∈ store, t.id ≠ input.id) →
      ∃ pre post, getTask store input
        = Except.error (pre ++ toString input.id ++ post)) := by
  constructor
  · intro t hmem hid
    rw [getTask, filter_id_eq_single store t input.id hnd hmem hid]
  · intro h
    rw [getTask, filter_id_eq_nil store input.id h]
    exact ⟨"Task with ID ", " not found", rfl⟩

/-- Witness for C3: lookup of the stored id 1 succeeds; lookups of id 0
and id -1 fail with the id in the message. -/
theorem getTask_found_or_not_found_witness :
    (IdsNodup [(⟨1, "A", some "d", true, 10, 10⟩ : Task)] ∧
      IdsNodup [(⟨1, "A", some "d", true, 10, 10⟩ : Task)] ∧
      IdsNodup [(⟨1, "A", some "d", true, 10, 10⟩ : Task)]) ∧
    getTask [⟨1, "A", some "d", true, 10, 10⟩] ⟨1⟩
      = Except.ok ⟨1, "A", some "d", true, 10, 10⟩ ∧
    (∃ pre post, getTask [⟨1, "A", some "d", true, 10, 10⟩] ⟨0⟩
      = Except.error (pre ++ toString (⟨0⟩ : TaskIdInput).id ++ post)) ∧
    (∃ pre post, getTask [⟨1, "A", some "d", true, 10, 10⟩] ⟨-1⟩
      = Except.error (pre ++ toString (⟨-1⟩ : TaskIdInput).id ++ post)) :=
  ⟨⟨by unfold IdsNodup; decide, by unfold IdsNodup; decide,
      by unfold IdsNodup; decide⟩,
    (getTask_found_or_not_found _ ⟨1⟩ (by unfold IdsNodup; decide)).1
      _ (by decide) (by decide),
    (getTask_found_or_not_found _ ⟨0⟩ (by unfold IdsNodup; decide)).2
      (by decide),
    (getTask_found_or_not_found _ ⟨-1⟩ (by unfold IdsNodup; decide)).2
      (by decide)⟩

/-- Claim C4: an update applies only the fields present in the input to the
stored row.  For the returned (stored) record: an absent description
leaves the stored description unchanged, a present description (whether
null or a value) overwrites it — absent, null and value are three
distinct input states — and title and completed behave likewise. -/
theorem updateTask_tri_state (store : List Task) (input : UpdateTaskInput)
    (now : Nat) (t : Task) (hnd : IdsNodup store) (hmem : t ∈ store)
    (hid : t.id = input.id) :
    ∃ u, (updateTask store input now).1 = Except.ok u ∧
      (input.description = none → u.description = t.description) ∧
      (∀ d, input.description = some d → u.description = d) ∧
      (input.title = none → u.title = t.title) ∧
      (∀ s, input.title = some s → u.title = s) ∧
      (input.completed = none → u.completed = t.completed) ∧
      (∀ b, input.completed = some b → u.completed = b) := by
  obtain ⟨l1, l2, hdec, heq⟩ := updateTask_ok_decomp store input now t hnd hmem hid
  refine ⟨applyUpdate input now t, by rw [heq], ?_, ?_, ?_, ?_, ?_, ?_⟩
  · intro h; simp [applyUpdate, h]
  · intro d h; simp [applyUpdate, h]
  · intro h; simp [applyUpdate, h]
  · intro s h; simp [applyUpdate, h]
  · intro h; simp [applyUpdate, h]
  · intro b h; simp [applyUpdate, h]

/-- Witness for C4: `{id := 1, description := some none}` (an explicit
null) on a row with a non-null description. -/
theorem updateTask_tri_state_witness :
    (IdsNodup [(⟨1, "A", some "d", false, 10, 10⟩ : Task)] ∧
      (⟨1, "A", some "d", false, 10, 10⟩ : Task)
        ∈ [(⟨1, "A", some "d", false, 10, 10⟩ : Task)] ∧
      (⟨1, "A", some "d", false, 10, 10⟩ : Task).id
        = ({ id := 1, description := some none } : UpdateTaskInput).id) ∧
    ∃ u, (updateTask [⟨1, "A", some "d", false, 10, 10⟩]
        { id := 1, description := some none } 11).1 = Except.ok u ∧
      (({ id := 1, description := some none } : UpdateTaskInput).description
          = none →
        u.description = (⟨1, "A", some "d", false, 10, 10⟩ : Task).description) ∧
      (∀ d, ({ id := 1, description := some none }
          : UpdateTaskInput).description = some d → u.description = d) ∧
      (({ id := 1, description := some none } : UpdateTaskInput).title = none →
        u.title = (⟨1, "A", some "d", false, 10, 10⟩ : Task).title) ∧
      (∀ s, ({ id := 1, description := some none } : UpdateTaskInput).title
          = some s → u.title = s) ∧
      (({ id := 1, description := some none } : UpdateTaskInput).completed
          = none →
        u.completed = (⟨1, "A", some "d", false, 10, 10⟩ : Task).completed) ∧
      (∀ b, ({ id := 1, description := some none } : UpdateTaskInput).completed
          = some b → u.completed = b) :=
  ⟨⟨by unfold IdsNodup; decide, by decide, by decide⟩,
    updateTask_tri_state _ _ 11 _ (by unfold IdsNodup; decide)
      (by decide) (by decide)⟩

/-- Claim C5: every successful update preserves `created_at` and resets
`updated_at` to the current time — strictly later than the previous
`updated_at` of the row — and an update carrying only `{id}` (all optional fields
absent) leaves title, description and completed at their prior values. -/
theorem updateTask_refreshes_updated_at (store : List Task)
    (input : UpdateTaskInput) (now : Nat) (t : Task) (hnd : IdsNodup store)
    (hmem : t ∈ store) (hid : t.id = input.id)
    (hnow : t.updated_at < now) :
    ∃ u, (updateTask store input now).1 = Except.ok u ∧
      u.created_at = t.created_at ∧ u.updated_at = now ∧
      t.updated_at < u.updated_at ∧
      (input = { id := input.id } →
        u.title = t.title ∧ u.description = t.description ∧
        u.completed = t.completed) := by
  obtain ⟨l1, l2, hdec, heq⟩ := updateTask_ok_decomp store input now t hnd hmem hid
  refine ⟨applyUpdate input now t, by rw [heq], rfl, rfl, hnow, ?_⟩
  intro h
  have h1 : input.title = none := by rw [h]
  have h2 : input.description = none := by rw [h]
  have h3 : input.completed = none := by rw [h]
  exact ⟨by simp [applyUpdate, h1], by simp [applyUpdate, h2],
    by simp [applyUpdate, h3]⟩

/-- Witness for C5: the no-op update `{id := 2}` at time 21 on a row last
updated at time 20. -/
theorem updateTask_refreshes_updated_at_witness :
    (IdsNodup [(⟨1, "A", none, false, 10, 10⟩ : Task),
        ⟨2, "B", some "x", true, 15, 20⟩] ∧
      (⟨2, "B", some "x", true, 15, 20⟩ : Task)
        ∈ [(⟨1, "A", none, false, 10, 10⟩ : Task),
            ⟨2, "B", some "x", true, 15, 20⟩] ∧
      (⟨2, "B", some "x", true, 15, 20⟩ : Task).id
        = ({ id := 2 } : UpdateTaskInput).id ∧
      (⟨2, "B", some "x", true, 15, 20⟩ : Task).updated_at < 21) ∧
    ∃ u, (updateTask [⟨1, "A", none, false, 10, 10⟩,
        ⟨2, "B", some "x", true, 15, 20⟩] { id := 2 } 21).1 = Except.ok u ∧
      u.created_at = (⟨2, "B", some "x", true, 15, 20⟩ : Task).created_at ∧
      u.updated_at = 21 ∧
      (⟨2, "B", some "x", true, 15, 20⟩ : Task).updated_at < u.updated_at ∧
      (({ id := 2 } : UpdateTaskInput)
          = { id := ({ id := 2 } : UpdateTaskInput).id } →
        u.title = (⟨2, "B", some "x", true, 15, 20⟩ : Task).title ∧
        u.description = (⟨2, "B", some "x", true, 15, 20⟩ : Task).description ∧
        u.completed = (⟨2, "B", some "x", true, 15, 20⟩ : Task).completed) :=
  ⟨⟨by unfold IdsNodup; decide, by decide, by decide, by decide⟩,
    updateTask_refreshes_updated_at _ _ 21 _ (by unfold IdsNodup; decide)
      (by decide) (by decide) (by decide)⟩

/-- Whatever the returned-row list, the store after `updateTask` is the
store with every matching row rewritten by the `UPDATE` statement. -/
theorem updateTask_snd (store : List Task) (input : UpdateTaskInput)
    (now : Nat) :
    (updateTask store input now).2
      = store.map fun t =>
          if t.id == input.id then applyUpdate input now t else t := by
  simp only [updateTask]
  split <;> rfl

/-- Every row of the store after `deleteTask` was a row of the store
before it. -/
theorem deleteTask_snd_subset (store : List Task) (input : TaskIdInput)
    (t : Task) (ht : t ∈ (deleteTask store input).2) : t ∈ store := by
  simp only [deleteTask] at ht
  split at ht
  · exact List.mem_of_mem_filter ht
  · exact ht

/-- Each single handler invocation preserves non-emptiness of every
stored title. -/
theorem step_preserves_titles (s1 s2 : Store) (hs : Step s1 s2)
    (h : TitlesNonEmpty s1) : TitlesNonEmpty s2 := by
  cases hs with
  | create input now hv =>
      intro t ht
      simp only [createTask, List.mem_append, List.mem_singleton] at ht
      rcases ht with ht | rfl
      · exact h t ht
      · exact hv
  | update input now hv =>
      intro t ht
      have h2 : t ∈ (updateTask s1.tasks input now).2 := ht
      rw [updateTask_snd] at h2
      obtain ⟨x, hx, rfl⟩ := List.mem_map.mp h2
      by_cases hxi : (x.id == input.id) = true
      · rw [if_pos hxi]
        cases htl : input.title with
        | none => simpa [applyUpdate, htl] using h x hx
        | some s2 => simpa [applyUpdate, htl] using hv s2 htl
      · rw [if_neg hxi]
        exact h x hx
  | delete input =>
      intro t ht
      exact h t (deleteTask_snd_subset s1.tasks input t ht)
  | readOne input => exact h
  | readAll => exact h

/-- Claim C7: `getTasks` returns every stored task ordered by `created_at`
descending; rows with equal `created_at` keep their store (insertion)
order, stated as: filtering the output by any creation time gives
exactly the store rows with that creation time in store order.  The
empty store yields the empty sequence. -/
theorem getTasks_sorted_desc_stable (store : List Task) :
    (getTasks store).Perm store ∧
    (getTasks store).Pairwise (fun a b => b.created_at ≤ a.created_at) ∧
    (∀ c, (getTasks store).filter (fun t => t.created_at == c)
        = store.filter (fun t => t.created_at == c)) ∧
    getTasks ([] : List Task) = [] := by
  have htrans : ∀ a b c : Task,
      createdAtDesc a b → createdAtDesc b c → createdAtDesc a c := by
    intro a b c hab hbc
    simp only [createdAtDesc, decide_eq_true_eq] at *
    omega
  have htotal : ∀ a b : Task, createdAtDesc a b || createdAtDesc b a := by
    intro a b
    simp only [createdAtDesc, Bool.or_eq_true, decide_eq_true_eq]
    omega
  refine ⟨List.mergeSort_perm store createdAtDesc, ?_, ?_, by simp [getTasks]⟩
  · exact List.Pairwise.imp (fun hab => by simpa [createdAtDesc] using hab)
      (List.sorted_mergeSort htrans htotal store)
  · intro c
    have hmemc : ∀ x ∈ store.filter (fun t => t.created_at == c),
        x.created_at = c := by
      intro x hx
      simpa using (List.mem_filter.mp hx).2
    have hA : (store.filter (fun t => t.created_at == c)).Pairwise
        (fun a b => createdAtDesc a b = true) :=
      List.pairwise_of_forall_mem_list (fun a ha b hb => by
        simp [createdAtDesc, hmemc a ha, hmemc b hb])
    have hsub : List.Sublist (store.filter (fun t => t.created_at == c))
        (getTasks store) :=
      List.sublist_mergeSort htrans htotal hA (List.filter_sublist store)
    have h2 : List.Sublist (store.filter (fun t => t.created_at == c))
        ((getTasks store).filter (fun t => t.created_at == c)) := by
      have h3 := hsub.filter (fun t => t.created_at == c)
      rwa [List.filter_eq_self.mpr
        (fun a ha => (List.mem_filter.mp ha).2)] at h3
    have hlen : (store.filter (fun t => t.created_at == c)).length
        = ((getTasks store).filter (fun t => t.created_at == c)).length := by
      rw [← List.countP_eq_length_filter, ← List.countP_eq_length_filter]
      exact ((List.mergeSort_perm store createdAtDesc).countP_eq _).symm
    exact (h2.eq_of_length hlen).symm

/-- Claim C8: `createTask` returns the newly persisted task: its id is the
store-generated serial id, its title and description are those of the input,
`completed` is `false`, and `created_at` equals `updated_at` (both the
same creation instant); the new row is appended to the store. -/
theorem createTask_fields (s : Store) (input : CreateTaskInput) (now : Nat) :
    (createTask s input now).1.id = s.nextId ∧
    (createTask s input now).1.title = input.title ∧
    (createTask s input now).1.description = input.description ∧
    (createTask s input now).1.completed = false ∧
    (createTask s input now).1.created_at = now ∧
    (createTask s input now).1.updated_at = now ∧
    (createTask s input now).1.created_at
      = (createTask s input now).1.updated_at ∧
    (createTask s input now).2.tasks = s.tasks ++ [(createTask s input now).1] :=
  ⟨rfl, rfl, rfl, rfl, rfl, rfl, rfl, rfl⟩

/-- Claim C9: in every store state reachable through the five handlers from the
empty store, the title of every stored task is a non-empty string. -/
theorem reachable_titles_nonempty (s : Store) (h : Reachable s) :
    TitlesNonEmpty s := by
  have h2 : Relation.ReflTransGen Step initialStore s := h
  induction h2 with
  | refl => intro t ht; simp [initialStore] at ht
  | tail hab hbc ih => exact step_preserves_titles _ _ hbc (ih hab)

/-- Witness for C9: the store reached by one create is reachable and its
titles are non-empty. -/
theorem reachable_titles_nonempty_witness :
    Reachable (createTask initialStore ⟨"A", some "d"⟩ 5).2 ∧
    TitlesNonEmpty (createTask initialStore ⟨"A", some "d"⟩ 5).2 :=
  ⟨Relation.ReflTransGen.single
      (Step.create initialStore ⟨"A", some "d"⟩ 5
        (by unfold ValidCreateInput; decide)),
    reachable_titles_nonempty _
      (Relation.ReflTransGen.single
        (Step.create initialStore ⟨"A", some "d"⟩ 5
          (by unfold ValidCreateInput; decide)))⟩

end Todo
